import Mathlib

/-!
# A shallow embedding of the jspy evaluation core

This file embeds the evaluation core of the jspy JavaScript interpreter
(`jspy/js.py` and `jspy/ast.py`) and proves properties of it.

Modelling conventions:
* Python floats are modelled as `Rat`; the claims verified here only exercise
  exact arithmetic (small integers and exact divisions), where the two agree.
  Python `int` values (which arise only from arithmetic on `bool`s) are
  collapsed into `Value.number`; the int-only operators (`~`, shifts and
  bitwise ops on ints) are modelled for the `bool` operand case that is
  reachable from the grammar's float literals.
* Mutable, aliased Python objects are handled with explicit identity: the
  interpreter state `St` is a store of environment frames addressed by index,
  and every `Object`/`Array`/`Function` allocation draws a fresh address from
  a counter (standing in for the CPython object address used by identity
  comparisons and by the default `!=`/ordering fallbacks).
* Python exceptions are modelled by the `Err` sum; evaluation returns
  `Except Err`.  `Err.outOfFuel` is not a source error: the evaluator is
  indexed by a fuel parameter and `outOfFuel` stands for non-termination
  (an infinite loop in evaluated code runs forever in the source).
* The embedded fragment covers every AST node the verified claims exercise.
  `This`, `PropertyAccess`, `ObjectLiteral`, `Constructor` and the host
  `NativeFunction`/`Console` objects are outside the fragment; consequently
  references always have an execution-context base (never an object base,
  and never the unresolvable `UNDEFINED` base).
-/

namespace Jspy

/-- Python exceptions that the embedded fragment of the interpreter can raise.
`referenceError` is `js.ReferenceError`; `typeError`, `attributeError`,
`valueError` and `zeroDivisionError` are the Python builtins of the same
names; `unknownOperator` is the `SyntaxError` raised by `UnaryOp.eval` /
`BinaryOp.eval` on an unrecognized operator string.  `outOfFuel` is not a
source error: it models non-termination of the fueled evaluator. -/
inductive Err where
  | referenceError
  | typeError
  | attributeError
  | valueError
  | zeroDivisionError
  | unknownOperator
  | outOfFuel
deriving Repr, DecidableEq

mutual

/-- Runtime values of jspy (`jspy/js.py`).  `object`/`array` carry the
allocation address (CPython object identity) and the backing dict `d` as an
insertion-ordered association list; `pyList` is a raw Python list (the value
bound to `arguments`); `function` carries the parameter names, the body, the
declared-vars set computed at construction time (`Function.__init__`), and
the captured defining environment (a frame address). -/
inductive Value where
  | undefined
  | number (n : Rat)
  | str (s : String)
  | bool (b : Bool)
  | object (addr : Nat) (d : List (String × Value))
  | array (addr : Nat) (d : List (String × Value))
  | pyList (items : List Value)
  | function (addr : Nat) (parameters : List String) (body : Stmt)
      (declaredVars : List String) (scope : Nat)

/-- Expression AST nodes (`jspy/ast.py`).  `arrayLiteral` items use `none`
for an elision slot (the parser's `None` entries); `functionDefinition`
stores the parameter names (the source stores `Identifier` nodes and extracts
their `.name` fields at evaluation time via `get_parameter_names`). -/
inductive Expr where
  | literal (v : Value)
  | identifier (name : String)
  | arrayLiteral (items : List (Option Expr))
  | functionCall (obj : Expr) (args : List Expr)
  | unaryOp (op : String) (expression : Expr)
  | binaryOp (op : String) (left : Expr) (right : Expr)
  | conditionalOp (condition trueExpression falseExpression : Expr)
  | assignment (op : String) (reference : Expr) (expression : Expr)
  | multiExpression (left : Expr) (right : Expr)
  | functionDefinition (parameters : List String) (body : Stmt)

/-- Statement AST nodes (`jspy/ast.py`).  A `varDeclList` holds
`(identifier name, optional initialiser)` pairs, inlining the source's
`VariableDeclaration` child nodes. -/
inductive Stmt where
  | block (statements : List Stmt)
  | varDeclList (declarations : List (String × Option Expr))
  | emptyStmt
  | exprStmt (expression : Expr)
  | ifStmt (condition : Expr) (trueStatement falseStatement : Stmt)
  | whileStmt (condition : Expr) (statement : Stmt)
  | doWhileStmt (condition : Expr) (statement : Stmt)
  | continueStmt
  | breakStmt
  | returnStmt (expression : Option Expr)
  | debuggerStmt

end

/-- Completion types (`js.NORMAL`, `js.BREAK`, `js.CONTINUE`, `js.RETURN`). -/
inductive CompletionType where
  | normal
  | brk
  | cont
  | ret
deriving Repr, DecidableEq

/-- The Completion specification type (`js.Completion`).  The `value` field
uses `none` for the `js.EMPTY` sentinel; the `target` field is always
`js.EMPTY` in the source and is omitted. -/
structure Completion where
  type : CompletionType
  value : Option Value

/-- The constant `js.EMPTY_COMPLETION`. -/
def emptyCompletion : Completion := ⟨CompletionType.normal, none⟩

/-- The predicate `js.is_abrupt`. -/
def isAbrupt (c : Completion) : Bool := c.type ≠ CompletionType.normal

/-- A reference with an execution-context base (`js.Reference` with
`base` an `ExecutionContext`); `env` is the frame address of the base. -/
structure Ref where
  name : String
  env : Nat

/-- Result of evaluating an expression node: a `Reference` or a plain value. -/
inductive ExprResult where
  | ref (r : Ref)
  | val (v : Value)

/-- One `ExecutionContext`: its own bindings dict and optional parent. -/
structure Frame where
  bindings : List (String × Value)
  parent : Option Nat

/-- Interpreter state: the store of environment frames (a frame's address is
its index; frames are only ever appended) and the allocation counter for
object/array/function identity. -/
structure St where
  frames : List Frame
  nextAddr : Nat

/-! ## Python dict operations (insertion-ordered association lists) -/

/-- Python dict lookup. -/
def dictLookup (d : List (String × Value)) (k : String) : Option Value :=
  match d with
  | [] => none
  | (k', v) :: rest => if k' = k then some v else dictLookup rest k

/-- Python dict `in`. -/
def dictHas (d : List (String × Value)) (k : String) : Bool :=
  (dictLookup d k).isSome

/-- Python dict assignment `d[k] = v`: overwrite in place if the key is
present, otherwise append (insertion order). -/
def dictSet (d : List (String × Value)) (k : String) (v : Value) :
    List (String × Value) :=
  match d with
  | [] => [(k, v)]
  | (k', v') :: rest =>
      if k' = k then (k', v) :: rest else (k', v') :: dictSet rest k v

/-- Python `d1.update(d2)`: set each entry of `d2`, in order, into `d1`. -/
def dictUpdate (d1 d2 : List (String × Value)) : List (String × Value) :=
  d2.foldl (fun d kv => dictSet d kv.1 kv.2) d1

/-- A value found by `dictLookup` is structurally smaller than the dict,
which justifies termination of the recursive Python `==` on dicts. -/
theorem sizeOf_dictLookup {d : List (String × Value)} {k : String} {w : Value}
    (h : dictLookup d k = some w) : sizeOf w < sizeOf d := by
  induction d with
  | nil => simp [dictLookup] at h
  | cons hd tl ih =>
      obtain ⟨k', v⟩ := hd
      by_cases hk : k' = k
      · simp [dictLookup, hk] at h
        subst h
        simp
        omega
      · simp [dictLookup, hk] at h
        have := ih h
        simp
        omega

/-! ## Python value semantics

The interpreter runs on Python 2 objects; these helpers reproduce the Python
operator behaviour on the value representations that occur in jspy. -/

/-- Python truthiness (`bool(v)`).  Note `js.UNDEFINED` is a plain
`object()` and is therefore truthy, and `js.Object` defines neither
`__len__` nor `__nonzero__`, so every object/array is truthy even when
empty. -/
def truthy : Value → Bool
  | .undefined => true
  | .number n => n ≠ 0
  | .str s => s ≠ ""
  | .bool b => b
  | .object _ _ => true
  | .array _ _ => true
  | .pyList items => !items.isEmpty
  | .function _ _ _ _ _ => true

/-- Numeric view for Python arithmetic: floats are numbers and `bool` is an
`int` subclass (`True` is `1`). -/
def asNum : Value → Option Rat
  | .number n => some n
  | .bool b => some (if b then 1 else 0)
  | _ => none

mutual

/-- Python `==` on jspy values.  Numbers and bools compare numerically;
strings structurally; lists elementwise; `js.Object`/`js.Array` compare
their backing dicts (`Object.__eq__`), but comparing an object with a value
that has no `d` attribute raises `AttributeError` (directly, or through the
reflected `__eq__`); functions and the `UNDEFINED` singleton compare by
identity; everything else compares unequal. -/
def pyEq : Value → Value → Except Err Bool
  | .number x, .number y => .ok (decide (x = y))
  | .number x, .bool b => .ok (decide (x = if b then 1 else 0))
  | .bool b, .number y => .ok (decide ((if b then (1 : Rat) else 0) = y))
  | .bool a, .bool b => .ok (a == b)
  | .str a, .str b => .ok (a == b)
  | .pyList a, .pyList b =>
      if a.length = b.length then pyListEq a b else .ok false
  | .object _ d1, .object _ d2 =>
      if d1.length = d2.length then pyDictEqAux d1 d2 else .ok false
  | .object _ d1, .array _ d2 =>
      if d1.length = d2.length then pyDictEqAux d1 d2 else .ok false
  | .array _ d1, .object _ d2 =>
      if d1.length = d2.length then pyDictEqAux d1 d2 else .ok false
  | .array _ d1, .array _ d2 =>
      if d1.length = d2.length then pyDictEqAux d1 d2 else .ok false
  | .object _ _, _ => .error .attributeError
  | _, .object _ _ => .error .attributeError
  | .array _ _, _ => .error .attributeError
  | _, .array _ _ => .error .attributeError
  | .function a1 _ _ _ _, .function a2 _ _ _ _ => .ok (a1 == a2)
  | .undefined, .undefined => .ok true
  | _, _ => .ok false
termination_by a b => sizeOf a + sizeOf b
decreasing_by all_goals simp_wf <;> omega

/-- Python list `==` on lists of equal length: elementwise, propagating
errors from element comparisons. -/
def pyListEq : List Value → List Value → Except Err Bool
  | [], _ => .ok true
  | _, [] => .ok true
  | a :: as', b :: bs' => do
      let e ← pyEq a b
      if e then pyListEq as' bs' else .ok false
termination_by a b => sizeOf a + sizeOf b
decreasing_by all_goals simp_wf <;> omega

/-- Python dict `==` on dicts of equal length: every key of the first dict
must be present in the second with an `==` value. -/
def pyDictEqAux : List (String × Value) → List (String × Value) →
    Except Err Bool
  | [], _ => .ok true
  | (k, v) :: rest, d2 =>
      match h : dictLookup d2 k with
      | none => .ok false
      | some w => do
          let e ← pyEq v w
          if e then pyDictEqAux rest d2 else .ok false
termination_by d1 d2 => sizeOf d1 + sizeOf d2
decreasing_by
  all_goals simp_wf
  all_goals first
    | omega
    | (have hsz := sizeOf_dictLookup h; omega)

end

/-- Python `!=` on jspy values.  `js.Object` defines `__eq__` but not
`__ne__`, so `!=` on objects falls back to Python 2's default comparison:
objects of the same class compare by address and objects of different
classes compare unequal — `!=` on objects never consults the structural
`__eq__` and never raises.  Lists use elementwise comparison (element
errors propagate); other types negate `==`. -/
def pyNe (a b : Value) : Except Err Bool :=
  match a, b with
  | .number x, .number y => .ok (!decide (x = y))
  | .number x, .bool bb => .ok (!decide (x = if bb then 1 else 0))
  | .bool bb, .number y => .ok (!decide ((if bb then (1 : Rat) else 0) = y))
  | .bool x, .bool y => .ok (x != y)
  | .str x, .str y => .ok (x != y)
  | .pyList x, .pyList y =>
      if x.length = y.length then (fun e => !e) <$> pyListEq x y
      else .ok true
  | .object a1 _, .object a2 _ => .ok (a1 != a2)
  | .object a1 _, .array a2 _ => .ok (a1 != a2)
  | .array a1 _, .object a2 _ => .ok (a1 != a2)
  | .array a1 _, .array a2 _ => .ok (a1 != a2)
  | .function a1 _ _ _ _, .function a2 _ _ _ _ => .ok (a1 != a2)
  | .undefined, .undefined => .ok false
  | _, _ => .ok true

/-- The type-name key used by Python 2's `default_3way_compare` fallback
ordering: numeric types sort before everything (empty pseudo-name), other
types sort by class name. -/
def typeName : Value → String
  | .undefined => "object"
  | .number _ => ""
  | .bool _ => ""
  | .str _ => "str"
  | .object _ _ => "Object"
  | .array _ _ => "Array"
  | .pyList _ => "list"
  | .function _ _ _ _ _ => "Function"

/-- Three-way `Rat` comparison. -/
def ratCompare (x y : Rat) : Ordering :=
  if x < y then .lt else if x = y then .eq else .gt

mutual

/-- Python 2 comparison (`cmp`) on jspy values: numbers numerically
(bools as ints), strings lexicographically, lists elementwise, objects of
the same class by address, and otherwise by type name — Python 2
comparisons between arbitrary values never raise. -/
def pyCompare : Value → Value → Ordering
  | .number x, .number y => ratCompare x y
  | .number x, .bool b => ratCompare x (if b then 1 else 0)
  | .bool b, .number y => ratCompare (if b then 1 else 0) y
  | .bool a, .bool b => ratCompare (if a then 1 else 0) (if b then 1 else 0)
  | .str a, .str b => compare a b
  | .pyList a, .pyList b => pyCompareList a b
  | .object a1 _, .object a2 _ => compare a1 a2
  | .array a1 _, .array a2 _ => compare a1 a2
  | .function a1 _ _ _ _, .function a2 _ _ _ _ => compare a1 a2
  | .undefined, .undefined => .eq
  | a, b => compare (typeName a) (typeName b)
termination_by a b => sizeOf a + sizeOf b
decreasing_by all_goals simp_wf <;> omega

/-- Python list comparison: lexicographic, elementwise. -/
def pyCompareList : List Value → List Value → Ordering
  | [], [] => .eq
  | [], _ :: _ => .lt
  | _ :: _, [] => .gt
  | a :: as', b :: bs' =>
      match pyCompare a b with
      | .eq => pyCompareList as' bs'
      | o => o
termination_by a b => sizeOf a + sizeOf b
decreasing_by all_goals simp_wf <;> omega

end

/-- Python `+`: numeric addition (bools as ints), string concatenation and
list concatenation; everything else raises `TypeError`. -/
def pyAdd (a b : Value) : Except Err Value :=
  match a, b with
  | .str x, .str y => .ok (.str (x ++ y))
  | .pyList x, .pyList y => .ok (.pyList (x ++ y))
  | _, _ =>
      match asNum a, asNum b with
      | some x, some y => .ok (.number (x + y))
      | _, _ => .error .typeError

/-- Python `-`: numeric only. -/
def pySub (a b : Value) : Except Err Value :=
  match asNum a, asNum b with
  | some x, some y => .ok (.number (x - y))
  | _, _ => .error .typeError

/-- Python `*`: numeric multiplication, plus sequence repetition by a bool
(the only int-typed multiplier reachable from the float-producing lexer). -/
def pyMul (a b : Value) : Except Err Value :=
  match a, b with
  | .str x, .bool c => .ok (.str (if c then x else ""))
  | .bool c, .str x => .ok (.str (if c then x else ""))
  | .pyList x, .bool c => .ok (.pyList (if c then x else []))
  | .bool c, .pyList x => .ok (.pyList (if c then x else []))
  | _, _ =>
      match asNum a, asNum b with
      | some x, some y => .ok (.number (x * y))
      | _, _ => .error .typeError

/-- Python `/` (true division on floats): `ZeroDivisionError` on a zero
divisor, `TypeError` on non-numeric operands. -/
def pyDiv (a b : Value) : Except Err Value :=
  match asNum a, asNum b with
  | some x, some y =>
      if y = 0 then .error .zeroDivisionError else .ok (.number (x / y))
  | _, _ => .error .typeError

/-- Python `%` on numbers: the result takes the sign of the divisor
(`x - y * floor(x / y)`); `ZeroDivisionError` on a zero divisor. -/
def pyMod (a b : Value) : Except Err Value :=
  match asNum a, asNum b with
  | some x, some y =>
      if y = 0 then .error .zeroDivisionError
      else .ok (.number (x - y * (Rat.floor (x / y) : Int)))
  | _, _ => .error .typeError

/-- Python `<<`: floats do not support shifting (`TypeError`); only the
bool/bool case (ints) is reachable in the embedded fragment. -/
def pyShl (a b : Value) : Except Err Value :=
  match a, b with
  | .bool x, .bool y =>
      .ok (.number (((if x then 1 else 0) * 2 ^ (if y then 1 else 0) : Nat)))
  | _, _ => .error .typeError

/-- Python `>>`: as for `<<`. -/
def pyShr (a b : Value) : Except Err Value :=
  match a, b with
  | .bool x, .bool y =>
      .ok (.number (((if x then 1 else 0) / 2 ^ (if y then 1 else 0) : Nat)))
  | _, _ => .error .typeError

/-- Python `&`: floats do not support bitwise ops; `bool & bool` is a bool. -/
def pyBAnd (a b : Value) : Except Err Value :=
  match a, b with
  | .bool x, .bool y => .ok (.bool (x && y))
  | _, _ => .error .typeError

/-- Python `^` on bools. -/
def pyBXor (a b : Value) : Except Err Value :=
  match a, b with
  | .bool x, .bool y => .ok (.bool (x != y))
  | _, _ => .error .typeError

/-- Python `|` on bools. -/
def pyBOr (a b : Value) : Except Err Value :=
  match a, b with
  | .bool x, .bool y => .ok (.bool (x || y))
  | _, _ => .error .typeError

/-- Python `<`. -/
def pyLt (a b : Value) : Except Err Value :=
  .ok (.bool (pyCompare a b == .lt))

/-- Python `<=`. -/
def pyLe (a b : Value) : Except Err Value :=
  .ok (.bool (pyCompare a b != .gt))

/-- Python `>`. -/
def pyGt (a b : Value) : Except Err Value :=
  .ok (.bool (pyCompare a b == .gt))

/-- Python `>=`. -/
def pyGe (a b : Value) : Except Err Value :=
  .ok (.bool (pyCompare a b != .lt))

/-- Python `left and right` on already-evaluated operands: returns the left
operand when it is falsy, otherwise the right operand. -/
def pyAnd (left right : Value) : Value :=
  if truthy left then right else left

/-- Python `left or right` on already-evaluated operands. -/
def pyOr (left right : Value) : Value :=
  if truthy left then left else right

/-- The operator dispatch of `BinaryOp.eval` (`jspy/ast.py`), applied after
both operands have been evaluated and dereferenced.  `instanceof` and `in`
are TODO stubs returning `False`; both loose and strict equality use the
same Python `==`/`!=`; an unrecognized operator raises `SyntaxError`. -/
def binaryOpValue (op : String) (left right : Value) : Except Err Value :=
  match op with
  | "*" => pyMul left right
  | "/" => pyDiv left right
  | "%" => pyMod left right
  | "+" => pyAdd left right
  | "-" => pySub left right
  | "<<" => pyShl left right
  | ">>" => pyShr left right
  | "<" => pyLt left right
  | "<=" => pyLe left right
  | ">" => pyGt left right
  | ">=" => pyGe left right
  | "instanceof" => .ok (.bool false)
  | "in" => .ok (.bool false)
  | "==" => Value.bool <$> pyEq left right
  | "!=" => Value.bool <$> pyNe left right
  | "===" => Value.bool <$> pyEq left right
  | "!==" => Value.bool <$> pyNe left right
  | "&" => pyBAnd left right
  | "^" => pyBXor left right
  | "|" => pyBOr left right
  | "&&" => .ok (pyAnd left right)
  | "||" => .ok (pyOr left right)
  | _ => .error .unknownOperator

/-- The module-level `perform_binary_op` helper of `jspy/ast.py`, used by
compound assignment: only the arithmetic/bitwise operators, raising
`ValueError` on anything else. -/
def performBinaryOp (op : String) (left right : Value) : Except Err Value :=
  match op with
  | "*" => pyMul left right
  | "/" => pyDiv left right
  | "%" => pyMod left right
  | "+" => pyAdd left right
  | "-" => pySub left right
  | "<<" => pyShl left right
  | ">>" => pyShr left right
  | "&" => pyBAnd left right
  | "^" => pyBXor left right
  | "|" => pyBOr left right
  | _ => .error .valueError

/-- Python unary `+`: numeric only (`+True` is `1`). -/
def pyPos (v : Value) : Except Err Value :=
  match asNum v with
  | some x => .ok (.number x)
  | none => .error .typeError

/-- Python unary `-`. -/
def pyNeg (v : Value) : Except Err Value :=
  match asNum v with
  | some x => .ok (.number (-x))
  | none => .error .typeError

/-- Python `~`: floats do not support inversion; only the bool case (an
int) is reachable in the embedded fragment. -/
def pyInvert (v : Value) : Except Err Value :=
  match v with
  | .bool b => .ok (.number (-(if b then (1 : Rat) else 0) - 1))
  | _ => .error .typeError

/-! ## Environments (`js.ExecutionContext`, `js.Reference`) -/

/-- Replace the frame at address `i`. -/
def setFrame (s : St) (i : Nat) (f : Frame) : St :=
  ⟨s.frames.set i f, s.nextAddr⟩

/-- Lookup `ExecutionContext.__getitem__` / `get_binding_value`: look the name up in
the own bindings, else recurse into the parent; raise `js.ReferenceError`
when there is no parent.  The `p < i` guards encode the store invariant that
parents are allocated before children (the evaluator only ever builds such
stores); a malformed store falls into the `ReferenceError` branch. -/
def getBindingValue (s : St) : Nat → String → Except Err Value
  | i, name =>
    match s.frames[i]? with
    | none => .error .referenceError
    | some f =>
        match dictLookup f.bindings name with
        | some v => .ok v
        | none =>
            match f.parent with
            | none => .error .referenceError
            | some p =>
                if _ : p < i then getBindingValue s p name
                else .error .referenceError
termination_by i => i

/-- Assignment `ExecutionContext.set_mutable_binding`: if the name is not among the own
bindings, delegate to the parent, or — at the root — create the binding
(the source's commented-out strict `ReferenceError` is disabled); otherwise
overwrite the own binding.  This is a total function: it never fails. -/
def setMutableBinding (s : St) : Nat → String → Value → St
  | i, name, v =>
    match s.frames[i]? with
    | none => s
    | some f =>
        if dictHas f.bindings name = false then
          match f.parent with
          | none => setFrame s i ⟨dictSet f.bindings name v, f.parent⟩
          | some p => if _ : p < i then setMutableBinding s p name v else s
        else setFrame s i ⟨dictSet f.bindings name v, f.parent⟩
termination_by i => i

/-- Model-side predicate: is `name` bound anywhere along the parent chain
starting at frame `i`? -/
def hasBindingInChain (s : St) : Nat → String → Bool
  | i, name =>
    match s.frames[i]? with
    | none => false
    | some f =>
        dictHas f.bindings name ||
          (match f.parent with
           | none => false
           | some p => if _ : p < i then hasBindingInChain s p name else false)
termination_by i => i

/-- Model-side function: the root (global) frame reached from frame `i`. -/
def rootOf (s : St) : Nat → Nat
  | i =>
    match s.frames[i]? with
    | none => i
    | some f =>
        match f.parent with
        | none => i
        | some p => if _ : p < i then rootOf s p else i
termination_by i => i

/-- Dereferencing `js.get_value`: resolve a `Reference` (whose base here is always an
execution context, never the unresolvable `UNDEFINED`), return other values
unchanged. -/
def getValue (r : ExprResult) (s : St) : Except Err Value :=
  match r with
  | .val v => .ok v
  | .ref rr => getBindingValue s rr.env rr.name

/-- Writing `js.put_value`: write through a `Reference` (which never fails, by
`set_mutable_binding`); putting to a non-reference raises
`js.ReferenceError`. -/
def putValue (r : ExprResult) (v : Value) (s : St) : Except Err St :=
  match r with
  | .ref rr => .ok (setMutableBinding s rr.env rr.name v)
  | .val _ => .error .referenceError

/-- Allocate a new execution-context frame, returning its address. -/
def allocFrame (s : St) (f : Frame) : Nat × St :=
  (s.frames.length, ⟨s.frames ++ [f], s.nextAddr⟩)

/-- Draw a fresh object address (CPython object identity). -/
def allocAddr (s : St) : Nat × St :=
  (s.nextAddr, ⟨s.frames, s.nextAddr + 1⟩)

/-! ## Declared variables (the hoisting pass, `get_declared_vars`) -/

/-- Insert into a duplicate-free list (Python `set` membership). -/
def listInsert (l : List String) (x : String) : List String :=
  if l.contains x then l else l ++ [x]

/-- Python set union (`ast.set_union`), as a duplicate-free list. -/
def listUnion (a b : List String) : List String :=
  b.foldl listInsert a

mutual

/-- The pass `get_declared_vars`: the statically declared (`var`) names of a scope.
Blocks union their statements' sets, declaration lists contribute their
identifiers, `if`/`while`/`do-while` delegate to their sub-statements, and
every other node (expressions included) contributes nothing. -/
def getDeclaredVars : Stmt → List String
  | .block stmts => getDeclaredVarsList stmts
  | .varDeclList decls => decls.foldl (fun acc d => listInsert acc d.1) []
  | .ifStmt _ t f => listUnion (getDeclaredVars t) (getDeclaredVars f)
  | .whileStmt _ st => getDeclaredVars st
  | .doWhileStmt _ st => getDeclaredVars st
  | _ => []

/-- Union of the declared-vars sets of a statement list. -/
def getDeclaredVarsList : List Stmt → List String
  | [] => []
  | st :: rest => listUnion (getDeclaredVars st) (getDeclaredVarsList rest)

end

/-! ## The function call mechanism (`js.Function`) -/

/-- The dict of `Function.prepare_args_dict`: start from `{'arguments': args}` (the raw
Python argument list), bind every parameter to `Undefined`, then bind each
parameter to the positionally corresponding argument. -/
def prepareArgsDict (params : List String) (args : List Value) :
    List (String × Value) :=
  let d0 : List (String × Value) := [("arguments", Value.pyList args)]
  let d1 := params.foldl (fun d n => dictSet d n Value.undefined) d0
  (List.zip params args).foldl (fun d kv => dictSet d kv.1 kv.2) d1

/-- The own bindings of `Function.prepare_function_context`: every declared
variable pre-bound to `Undefined`, updated with the args dict. -/
def prepareFunctionBindings (dvars params : List String)
    (args : List Value) : List (String × Value) :=
  dictUpdate (dvars.map (fun n => (n, Value.undefined)))
    (prepareArgsDict params args)

/-- Result unwrapping of `Function.call`: the value of a `Return` completion,
`Undefined` otherwise.  (`Return` completions built by the evaluator always
carry a value; `getD` covers the unreachable `EMPTY` case.) -/
def returnValue (c : Completion) : Value :=
  match c.type with
  | .ret => c.value.getD .undefined
  | _ => .undefined

/-- The string `str(float(i))` for a natural index: the key normalization applied by
`Array.__init__` through `Object.__setitem__`. -/
def arrayKey (i : Nat) : String := toString i ++ ".0"

/-- The constructor `Array.__init__`: successive `self[float(i)] = item` assignments. -/
def mkArrayEntries (vals : List Value) : List (String × Value) :=
  vals.enum.foldl (fun d p => dictSet d (arrayKey p.1) p.2) []

/-! ## The evaluator (`Node.eval` methods of `jspy/ast.py`)

Every function is indexed by a fuel parameter; each recursive call at an
evaluation step uses one unit, and exhausted fuel models non-termination
(`Err.outOfFuel`).  Every other aspect is a direct transcription of the
corresponding `eval` method. -/

mutual

/-- Expression evaluation (`Node.eval` for expression nodes): produces a
`Reference` or a plain value. -/
def evalExpr : Nat → Expr → Nat → St → Except Err (ExprResult × St)
  | 0, _, _, _ => .error .outOfFuel
  | fuel + 1, e, env, s =>
    match e with
    | .literal v => .ok (.val v, s)
    | .identifier name => .ok (.ref ⟨name, env⟩, s)
    | .arrayLiteral items => do
        -- evaluate (and dereference) each item; `None` slots give Undefined
        let (vals, s1) ← evalArrayItems fuel items env s
        -- Elision: remove last item if it is js.UNDEFINED
        let vals' :=
          match vals.getLast? with
          | some .undefined => vals.dropLast
          | _ => vals
        let (addr, s2) := allocAddr s1
        .ok (.val (.array addr (mkArrayEntries vals')), s2)
    | .functionCall obj args => do
        let (fr, s1) ← evalExpr fuel obj env s
        let f ← getValue fr s1
        -- Python evaluates the attribute access `f.call` before the
        -- argument list: a non-callable raises AttributeError here, with
        -- the argument expressions never evaluated
        match f with
        | .function _ params body dvars scope => do
            let (argVals, s2) ← evalArgList fuel args env s1
            let (v, s3) ← callFunction fuel params body dvars scope argVals s2
            .ok (.val v, s3)
        | _ => .error .attributeError
    | .unaryOp op ex => do
        -- UnaryOp.eval dereferences the operand before dispatching on op
        let (r, s1) ← evalExpr fuel ex env s
        let v ← getValue r s1
        match op with
        | "delete" => .ok (.val (.bool true), s1)     -- TODO stub
        | "void" => .ok (.val .undefined, s1)
        | "typeof" => .ok (.val (.str "object"), s1)  -- TODO stub
        | "++" => do
            let nv ← pyAdd v (.number 1)
            let s2 ← putValue r nv s1
            .ok (.val nv, s2)
        | "--" => do
            let nv ← pySub v (.number 1)
            let s2 ← putValue r nv s1
            .ok (.val nv, s2)
        | "postfix++" => do
            let nv ← pyAdd v (.number 1)
            let s2 ← putValue r nv s1
            .ok (.val v, s2)
        | "postfix--" => do
            let nv ← pySub v (.number 1)
            let s2 ← putValue r nv s1
            .ok (.val v, s2)
        | "+" => do
            let w ← pyPos v
            .ok (.val w, s1)
        | "-" => do
            let w ← pyNeg v
            .ok (.val w, s1)
        | "~" => do
            let w ← pyInvert v
            .ok (.val w, s1)
        | "!" => .ok (.val (.bool (!truthy v)), s1)
        | _ => .error .unknownOperator
    | .binaryOp op l r => do
        -- BinaryOp.eval evaluates and dereferences BOTH operands before
        -- dispatching on the operator: `&&` and `||` are not short-circuit
        let (lr, s1) ← evalExpr fuel l env s
        let lv ← getValue lr s1
        let (rr, s2) ← evalExpr fuel r env s1
        let rv ← getValue rr s2
        let w ← binaryOpValue op lv rv
        .ok (.val w, s2)
    | .conditionalOp c t f => do
        let (cr, s1) ← evalExpr fuel c env s
        let cv ← getValue cr s1
        if truthy cv then do
          let (tr, s2) ← evalExpr fuel t env s1
          let tv ← getValue tr s2
          .ok (.val tv, s2)
        else do
          let (fr, s2) ← evalExpr fuel f env s1
          let fv ← getValue fr s2
          .ok (.val fv, s2)
    | .assignment op refE ex => do
        let (r, s1) ← evalExpr fuel refE env s
        let (vr, s2) ← evalExpr fuel ex env s1
        let v ← getValue vr s2
        if op = "=" then do
          let s3 ← putValue r v s2
          .ok (.val v, s3)
        else do
          -- compound operator: strip the trailing '=' and combine with the
          -- current value of the target before writing
          let cur ← getValue r s2
          let nv ← performBinaryOp (op.dropRight 1) cur v
          let s3 ← putValue r nv s2
          .ok (.val nv, s3)
    | .multiExpression l r => do
        -- the left result is discarded without dereferencing
        let (_, s1) ← evalExpr fuel l env s
        evalExpr fuel r env s1
    | .functionDefinition params body =>
        -- js.Function(parameters, body, scope=context); declared_vars is
        -- computed once here, at construction time
        let (addr, s1) := allocAddr s
        .ok (.val (.function addr params body (getDeclaredVars body) env), s1)
termination_by structural fuel => fuel

/-- Statement evaluation (`Node.eval` for statement nodes): produces a
Completion. -/
def evalStmt : Nat → Stmt → Nat → St → Except Err (Completion × St)
  | 0, _, _, _ => .error .outOfFuel
  | fuel + 1, st, env, s =>
    match st with
    | .block stmts => evalStmtList fuel stmts env emptyCompletion s
    | .varDeclList decls => evalVarDecls fuel decls env s
    | .emptyStmt => .ok (emptyCompletion, s)
    | .exprStmt e => do
        let (r, s1) ← evalExpr fuel e env s
        let v ← getValue r s1
        .ok (⟨.normal, some v⟩, s1)
    | .ifStmt c t f => do
        let (cr, s1) ← evalExpr fuel c env s
        let cv ← getValue cr s1
        if truthy cv then evalStmt fuel t env s1 else evalStmt fuel f env s1
    | .whileStmt c b => whileLoop fuel c b env none s
    | .doWhileStmt c b => doWhileLoop fuel c b env none s
    | .continueStmt => .ok (⟨.cont, none⟩, s)
    | .breakStmt => .ok (⟨.brk, none⟩, s)
    | .returnStmt none => .ok (⟨.ret, some .undefined⟩, s)
    | .returnStmt (some e) => do
        let (r, s1) ← evalExpr fuel e env s
        let v ← getValue r s1
        .ok (⟨.ret, some v⟩, s1)
    | .debuggerStmt => .ok (emptyCompletion, s)
termination_by structural fuel => fuel

/-- The statement loop of `Block.eval`: evaluate in order, return any abrupt
completion unchanged immediately, track the last completion with a
non-`EMPTY` value, and return it (the accumulator starts at
`EMPTY_COMPLETION`). -/
def evalStmtList : Nat → List Stmt → Nat → Completion → St →
    Except Err (Completion × St)
  | 0, _, _, _, _ => .error .outOfFuel
  | _ + 1, [], _, result, s => .ok (result, s)
  | fuel + 1, st :: rest, env, result, s => do
      let (pr, s1) ← evalStmt fuel st env s
      if isAbrupt pr then .ok (pr, s1)
      else
        evalStmtList fuel rest env
          (match pr.value with
           | some _ => pr
           | none => result) s1
termination_by structural fuel => fuel

/-- The loop of `VariableDeclarationList.eval`, inlining
`VariableDeclaration.eval`: write the initialiser's value through
`Reference(name, context)` for each declaration (a missing initialiser is
`None` whose `.eval` attribute access raises `AttributeError`), discard the
per-declaration completions, and finish with `EMPTY_COMPLETION`. -/
def evalVarDecls : Nat → List (String × Option Expr) → Nat → St →
    Except Err (Completion × St)
  | 0, _, _, _ => .error .outOfFuel
  | _ + 1, [], _, s => .ok (emptyCompletion, s)
  | fuel + 1, (name, init?) :: rest, env, s =>
      match init? with
      | none => .error .attributeError
      | some e => do
          let (vr, s1) ← evalExpr fuel e env s
          let v ← getValue vr s1
          evalVarDecls fuel rest env (setMutableBinding s1 env name v)
termination_by structural fuel => fuel

/-- The `while True` loop of `WhileStatement.eval`, with the accumulated
`result_value` as an explicit argument (`none` is the `EMPTY` start). -/
def whileLoop : Nat → Expr → Stmt → Nat → Option Value → St →
    Except Err (Completion × St)
  | 0, _, _, _, _, _ => .error .outOfFuel
  | fuel + 1, c, b, env, acc, s => do
      let (cr, s1) ← evalExpr fuel c env s
      let cv ← getValue cr s1
      if !truthy cv then .ok (⟨.normal, acc⟩, s1)
      else do
        let (stc, s2) ← evalStmt fuel b env s1
        let acc' :=
          match stc.value with
          | some v => some v
          | none => acc
        match stc.type with
        | .brk => .ok (⟨.normal, acc'⟩, s2)
        | .ret => .ok (stc, s2)
        | _ => whileLoop fuel c b env acc' s2
termination_by structural fuel => fuel

/-- The loop of `DoWhileStatement.eval`: run the body, then test the
condition. -/
def doWhileLoop : Nat → Expr → Stmt → Nat → Option Value → St →
    Except Err (Completion × St)
  | 0, _, _, _, _, _ => .error .outOfFuel
  | fuel + 1, c, b, env, acc, s => do
      let (stc, s1) ← evalStmt fuel b env s
      let acc' :=
        match stc.value with
        | some v => some v
        | none => acc
      match stc.type with
      | .brk => .ok (⟨.normal, acc'⟩, s1)
      | .ret => .ok (stc, s1)
      | _ => do
          let (cr, s2) ← evalExpr fuel c env s1
          let cv ← getValue cr s2
          if truthy cv then doWhileLoop fuel c b env acc' s2
          else .ok (⟨.normal, acc'⟩, s2)
termination_by structural fuel => fuel

/-- The method `Function.call`: build the fresh own bindings, allocate the function
context with the captured defining scope as parent, evaluate the body there,
and unwrap a `Return` completion (else `Undefined`). -/
def callFunction : Nat → List String → Stmt → List String → Nat →
    List Value → St → Except Err (Value × St)
  | 0, _, _, _, _, _, _ => .error .outOfFuel
  | fuel + 1, params, body, dvars, scope, args, s => do
      let (envId, s1) :=
        allocFrame s ⟨prepareFunctionBindings dvars params args, some scope⟩
      let (c, s2) ← evalStmt fuel body envId s1
      .ok (returnValue c, s2)
termination_by structural fuel => fuel

/-- Left-to-right evaluation and dereferencing of call arguments. -/
def evalArgList : Nat → List Expr → Nat → St →
    Except Err (List Value × St)
  | 0, _, _, _ => .error .outOfFuel
  | _ + 1, [], _, s => .ok ([], s)
  | fuel + 1, e :: rest, env, s => do
      let (r, s1) ← evalExpr fuel e env s
      let v ← getValue r s1
      let (vs, s2) ← evalArgList fuel rest env s1
      .ok (v :: vs, s2)
termination_by structural fuel => fuel

/-- Mapping `ArrayLiteral.get_item_value` over the item list: an elision slot
(`None`) contributes `Undefined` without evaluating anything. -/
def evalArrayItems : Nat → List (Option Expr) → Nat → St →
    Except Err (List Value × St)
  | 0, _, _, _ => .error .outOfFuel
  | _ + 1, [], _, s => .ok ([], s)
  | fuel + 1, none :: rest, env, s => do
      let (vs, s1) ← evalArrayItems fuel rest env s
      .ok (Value.undefined :: vs, s1)
  | fuel + 1, some e :: rest, env, s => do
      let (r, s1) ← evalExpr fuel e env s
      let v ← getValue r s1
      let (vs, s2) ← evalArrayItems fuel rest env s1
      .ok (v :: vs, s2)
termination_by structural fuel => fuel

end

/-- Evaluate an expression and dereference the result
(`js.get_value(e.eval(context))`). -/
def evalValue (fuel : Nat) (e : Expr) (env : Nat) (s : St) :
    Except Err (Value × St) := do
  let (r, s1) ← evalExpr fuel e env s
  let v ← getValue r s1
  .ok (v, s1)

/-- The initial interpreter state: a single root (global) frame with the
given bindings. -/
def initialSt (bindings : List (String × Value)) : St :=
  ⟨[⟨bindings, none⟩], 0⟩

/-- Store well-formedness: every frame's parent was allocated before it.
Every store built by the evaluator satisfies this (frames are appended and
parents are existing frames). -/
def wellFormed (s : St) : Prop :=
  ∀ (j : Nat) (f : Frame), s.frames[j]? = some f →
    ∀ p, f.parent = some p → p < j

/-! ## Dictionary lemmas -/

theorem dictLookup_dictSet_self (d : List (String × Value)) (k : String)
    (v : Value) : dictLookup (dictSet d k v) k = some v := by
  induction d with
  | nil => simp [dictSet, dictLookup]
  | cons hd tl ih =>
      obtain ⟨k', v'⟩ := hd
      by_cases h : k' = k <;> simp [dictSet, dictLookup, h, ih]

theorem dictLookup_dictSet_ne (d : List (String × Value)) (k k' : String)
    (v : Value) (h : k ≠ k') :
    dictLookup (dictSet d k v) k' = dictLookup d k' := by
  induction d with
  | nil => simp [dictSet, dictLookup, h]
  | cons hd tl ih =>
      obtain ⟨k'', v''⟩ := hd
      by_cases h2 : k'' = k
      · subst h2
        simp [dictSet, dictLookup, h]
      · simp [dictSet, dictLookup, h2, ih]

theorem dictLookup_eq_none_of_not_mem (d : List (String × Value))
    (k : String) (h : k ∉ d.map Prod.fst) : dictLookup d k = none := by
  induction d with
  | nil => simp [dictLookup]
  | cons hd tl ih =>
      obtain ⟨k', v'⟩ := hd
      simp only [List.map_cons, List.mem_cons, not_or] at h
      unfold dictLookup
      rw [if_neg (fun heq => h.1 heq.symm), ih h.2]

/-- Keys of a dict after `dictSet`. -/
theorem dictSet_map_fst (d : List (String × Value)) (k : String) (v : Value) :
    (dictSet d k v).map Prod.fst =
      if k ∈ d.map Prod.fst then d.map Prod.fst else d.map Prod.fst ++ [k] := by
  induction d with
  | nil => simp [dictSet]
  | cons hd tl ih =>
      obtain ⟨k', v'⟩ := hd
      by_cases h : k' = k
      · subst h
        simp [dictSet]
      · by_cases h2 : k ∈ tl.map Prod.fst <;>
          simp [dictSet, h, ih, Ne.symm h, h2]

/-- A dict with no duplicate keys. -/
def nodupKeys (d : List (String × Value)) : Prop := (d.map Prod.fst).Nodup

theorem nodupKeys_dictSet (d : List (String × Value)) (k : String) (v : Value)
    (h : nodupKeys d) : nodupKeys (dictSet d k v) := by
  unfold nodupKeys at *
  rw [dictSet_map_fst]
  by_cases h2 : k ∈ d.map Prod.fst
  · simpa [h2]
  · simpa [h2, List.nodup_append, h2] using h

/-- Fold of `dictSet` over pairs whose keys avoid `k` preserves `k`'s
binding. -/
theorem dictLookup_foldl_not_mem (kvs : List (String × Value))
    (d : List (String × Value)) (k : String) (h : k ∉ kvs.map Prod.fst) :
    dictLookup (kvs.foldl (fun d kv => dictSet d kv.1 kv.2) d) k =
      dictLookup d k := by
  induction kvs generalizing d with
  | nil => simp
  | cons hd tl ih =>
      obtain ⟨k', v'⟩ := hd
      simp only [List.map_cons, List.mem_cons, not_or] at h
      rw [List.foldl_cons, ih _ h.2,
        dictLookup_dictSet_ne _ _ _ _ (fun heq => h.1 heq.symm)]

/-- Fold of constant-`Undefined` `dictSet`s over a name list. -/
theorem dictLookup_foldl_undefined (params : List String)
    (d : List (String × Value)) (k : String) :
    dictLookup (params.foldl (fun d n => dictSet d n Value.undefined) d) k =
      if k ∈ params then some Value.undefined else dictLookup d k := by
  induction params generalizing d with
  | nil => simp
  | cons p ps ih =>
      rw [List.foldl_cons, ih]
      by_cases hp : k ∈ ps
      · simp [hp]
      · by_cases hk : k = p
        · subst hk
          simp [hp, dictLookup_dictSet_self]
        · simp [hp, hk, dictLookup_dictSet_ne _ _ _ _ (Ne.symm hk)]

theorem mem_of_mem_map_fst_zip {l1 : List String} {l2 : List Value}
    {x : String} (h : x ∈ (l1.zip l2).map Prod.fst) : x ∈ l1 := by
  induction l1 generalizing l2 with
  | nil => simp [List.zip] at h
  | cons a as ih =>
      cases l2 with
      | nil => simp [List.zip] at h
      | cons b bs =>
          rw [List.zip_cons_cons, List.map_cons, List.mem_cons] at h
          rcases h with h | h
          · exact h ▸ List.mem_cons_self _ _
          · exact List.mem_cons_of_mem _ (ih h)

/-- Positional parameter binding: after folding `zip params args` with
`dictSet` (no duplicate parameter names), parameter `i` is bound to
argument `i` when supplied, and keeps its prior binding otherwise. -/
theorem dictLookup_foldl_zip (params : List String) (args : List Value)
    (d : List (String × Value)) (i : Nat) (hi : i < params.length)
    (hnd : params.Nodup) :
    dictLookup ((params.zip args).foldl (fun d kv => dictSet d kv.1 kv.2) d)
        (params.get ⟨i, hi⟩) =
      if h : i < args.length then some (args.get ⟨i, h⟩)
      else dictLookup d (params.get ⟨i, hi⟩) := by
  induction params generalizing args d i with
  | nil => simp at hi
  | cons p ps ih =>
      cases args with
      | nil =>
          simp [List.zip]
      | cons a as =>
          have hnd' : ps.Nodup := hnd.of_cons
          have hp : p ∉ ps := (List.nodup_cons.mp hnd).1
          cases i with
          | zero =>
              have hkeys : p ∉ (ps.zip as).map Prod.fst := fun hmem =>
                hp (mem_of_mem_map_fst_zip hmem)
              simp [List.zip_cons_cons, dictLookup_foldl_not_mem _ _ _ hkeys,
                dictLookup_dictSet_self]
          | succ j =>
              have hj : j < ps.length := Nat.lt_of_succ_lt_succ hi
              rw [List.zip_cons_cons, List.foldl_cons]
              have hrw := ih as (dictSet d p a) j hj hnd'
              rw [List.get_cons_succ, hrw]
              by_cases hja : j < as.length
              · rw [dif_pos hja, dif_pos (by simpa using hja),
                  List.get_cons_succ]
              · have hne : ps.get ⟨j, hj⟩ ≠ p := fun hEq =>
                  hp (hEq ▸ ps.get_mem j hj)
                rw [dif_neg hja, dif_neg (by simpa using hja),
                  dictLookup_dictSet_ne _ _ _ _ (Ne.symm hne)]

/-- Looking a key up after a Python `update`: an entry of the (duplicate-free)
second dict wins, otherwise the first dict's binding is kept. -/
theorem dictLookup_dictUpdate (d1 d2 : List (String × Value)) (k : String)
    (h : nodupKeys d2) :
    dictLookup (dictUpdate d1 d2) k =
      match dictLookup d2 k with
      | some v => some v
      | none => dictLookup d1 k := by
  induction d2 generalizing d1 with
  | nil => simp [dictUpdate, dictLookup]
  | cons hd tl ih =>
      obtain ⟨k2, v2⟩ := hd
      have hnd : nodupKeys tl := by
        unfold nodupKeys at *
        simpa using h.of_cons
      have hk2 : k2 ∉ tl.map Prod.fst := by
        unfold nodupKeys at h
        simpa using (List.nodup_cons.mp h).1
      unfold dictUpdate at *
      rw [List.foldl_cons, ih _ hnd]
      by_cases hkk : k2 = k
      · subst hkk
        rw [dictLookup_eq_none_of_not_mem _ _ hk2]
        simp [dictLookup, dictLookup_dictSet_self]
      · simp [dictLookup, hkk, dictLookup_dictSet_ne _ _ _ _ hkk]

/-- Lookup in the hoisted-variables base dict. -/
theorem dictLookup_undefined_base (dvars : List String) (k : String) :
    dictLookup (dvars.map (fun n => (n, Value.undefined))) k =
      if k ∈ dvars then some Value.undefined else none := by
  induction dvars with
  | nil => simp [dictLookup]
  | cons d ds ih =>
      by_cases h : d = k
      · subst h
        simp [dictLookup]
      · simp [dictLookup, h, ih, Ne.symm h]

theorem nodupKeys_foldl_pairs (kvs : List (String × Value))
    (d : List (String × Value)) (h : nodupKeys d) :
    nodupKeys (kvs.foldl (fun d kv => dictSet d kv.1 kv.2) d) := by
  induction kvs generalizing d with
  | nil => simpa
  | cons hd tl ih => exact ih _ (nodupKeys_dictSet _ _ _ h)

theorem nodupKeys_foldl_names (names : List String)
    (d : List (String × Value)) (h : nodupKeys d) :
    nodupKeys (names.foldl (fun d n => dictSet d n Value.undefined) d) := by
  induction names generalizing d with
  | nil => simpa
  | cons hd tl ih => exact ih _ (nodupKeys_dictSet _ _ _ h)

theorem nodupKeys_prepareArgsDict (params : List String) (args : List Value) :
    nodupKeys (prepareArgsDict params args) := by
  unfold prepareArgsDict
  refine nodupKeys_foldl_pairs _ _ (nodupKeys_foldl_names _ _ ?_)
  simp [nodupKeys]

/-- The dict `prepare_args_dict` binds parameter `i` to argument `i` when supplied,
to `Undefined` otherwise. -/
theorem prepareArgsDict_param (params : List String) (args : List Value)
    (hnd : params.Nodup) (i : Nat) (hi : i < params.length) :
    dictLookup (prepareArgsDict params args) (params.get ⟨i, hi⟩) =
      some (args.getD i Value.undefined) := by
  unfold prepareArgsDict
  rw [dictLookup_foldl_zip _ _ _ i hi hnd]
  by_cases h : i < args.length
  · rw [dif_pos h]
    congr 1
    rw [List.getD_eq_getElem?_getD, List.getElem?_eq_getElem h]
    rfl
  · rw [dif_neg h, dictLookup_foldl_undefined]
    rw [if_pos (params.get_mem i hi)]
    congr 1
    rw [List.getD_eq_getElem?_getD, List.getElem?_eq_none (Nat.le_of_not_lt h)]
    rfl

/-- The dict `prepare_args_dict` binds `arguments` to the raw argument list, unless a
parameter of that name overrides it. -/
theorem prepareArgsDict_arguments (params : List String) (args : List Value)
    (h : "arguments" ∉ params) :
    dictLookup (prepareArgsDict params args) "arguments" =
      some (Value.pyList args) := by
  unfold prepareArgsDict
  rw [dictLookup_foldl_not_mem _ _ _
    (fun hm => h (mem_of_mem_map_fst_zip hm)),
    dictLookup_foldl_undefined, if_neg h]
  rfl

/-- The dict `prepare_args_dict` binds nothing else. -/
theorem prepareArgsDict_not_mem (params : List String) (args : List Value)
    (k : String) (h1 : k ∉ params) (h2 : k ≠ "arguments") :
    dictLookup (prepareArgsDict params args) k = none := by
  unfold prepareArgsDict
  rw [dictLookup_foldl_not_mem _ _ _
    (fun hm => h1 (mem_of_mem_map_fst_zip hm)),
    dictLookup_foldl_undefined, if_neg h1]
  unfold dictLookup
  rw [if_neg (fun heq : "arguments" = k => h2 heq.symm)]
  rfl

/-! ## Chain lemmas -/

/-- A name bound nowhere along the chain makes `get_binding_value` raise
`ReferenceError`. -/
theorem getBindingValue_of_not_in_chain (s : St) (n : String) :
    ∀ i, hasBindingInChain s i n = false →
      getBindingValue s i n = .error .referenceError := by
  intro i
  induction i using Nat.strong_induction_on with
  | _ i ih =>
      intro h
      rw [hasBindingInChain] at h
      rw [getBindingValue]
      cases hf : s.frames[i]? with
      | none => rfl
      | some f =>
          rw [hf] at h
          simp only [Bool.or_eq_false_iff] at h
          have hmiss : dictLookup f.bindings n = none := by
            have hh := h.1
            unfold dictHas at hh
            cases hd : dictLookup f.bindings n with
            | none => rfl
            | some v => rw [hd] at hh; simp at hh
          simp only [hmiss]
          cases hp : f.parent with
          | none => rfl
          | some p =>
              have hh := h.2
              rw [hp] at hh
              by_cases hlt : p < i
              · simp only [dif_pos hlt] at hh ⊢
                exact ih p hlt hh
              · simp only [dif_neg hlt]

/-- On a well-formed store, assignment to a name declared nowhere along the
chain creates the binding at the root (global) frame. -/
theorem setMutableBinding_creates_at_root (s : St) (n : String) (v : Value)
    (hw : wellFormed s) :
    ∀ i, i < s.frames.length → hasBindingInChain s i n = false →
      ∃ g, s.frames[rootOf s i]? = some g ∧ g.parent = none ∧
        setMutableBinding s i n v =
          setFrame s (rootOf s i) ⟨dictSet g.bindings n v, none⟩ := by
  intro i
  induction i using Nat.strong_induction_on with
  | _ i ih =>
      intro hi h
      have hf : s.frames[i]? = some s.frames[i] := List.getElem?_eq_getElem hi
      rw [hasBindingInChain, hf] at h
      simp only [Bool.or_eq_false_iff] at h
      cases hp : s.frames[i].parent with
      | none =>
          refine ⟨s.frames[i], ?_, hp, ?_⟩
          · rw [rootOf]
            simp only [hf, hp]
          · rw [setMutableBinding, rootOf]
            simp only [hf, hp, h.1]
            simp
      | some p =>
          have hlt : p < i := hw i s.frames[i] hf p hp
          have hroot : rootOf s i = rootOf s p := by
            rw [rootOf]
            simp only [hf, hp, dif_pos hlt]
          have hset : setMutableBinding s i n v = setMutableBinding s p n v := by
            rw [setMutableBinding]
            simp only [hf, hp, h.1, dif_pos hlt]
            simp
          have hchain : hasBindingInChain s p n = false := by
            have hh := h.2
            rw [hp] at hh
            simp only [dif_pos hlt] at hh
            exact hh
          obtain ⟨g, hg1, hg2, hg3⟩ :=
            ih p hlt (Nat.lt_trans hlt hi) hchain
          exact ⟨g, hroot ▸ hg1, hg2, by rw [hset, hg3, hroot]⟩

/-! ## Monad plumbing lemmas -/

theorem ok_bind {α β : Type} (a : α) (f : α → Except Err β) :
    (Except.ok a : Except Err α) >>= f = f a := rfl

theorem error_bind {α β : Type} (e : Err) (f : α → Except Err β) :
    (Except.error e : Except Err α) >>= f = .error e := rfl

/-- Inversion of a successful `evalValue` run into its two steps:
expression evaluation and dereferencing. -/
theorem evalValue_inv {fuel : Nat} {e : Expr} {env : Nat} {s s1 : St}
    {v : Value} (h : evalValue fuel e env s = .ok (v, s1)) :
    ∃ r, evalExpr fuel e env s = .ok (r, s1) ∧ getValue r s1 = .ok v := by
  unfold evalValue at h
  cases hx : evalExpr fuel e env s with
  | error err =>
      rw [hx] at h
      simp only [error_bind] at h
      exact Except.noConfusion h
  | ok p =>
      obtain ⟨r, s1'⟩ := p
      rw [hx] at h
      simp only [ok_bind] at h
      cases hg : getValue r s1' with
      | error err =>
          rw [hg] at h
          simp only [error_bind] at h
          exact Except.noConfusion h
      | ok w =>
          rw [hg] at h
          simp only [ok_bind] at h
          injection h with hpair
          injection hpair with hw hs
          refine ⟨r, ?_, ?_⟩
          · rw [hs]
          · rw [← hs, hg, hw]

/-! ## The claims -/

/-- C8: for every pair of operand values, the loose equality operators
`==`/`!=` and the strict operators `===`/`!==` return identical results:
`BinaryOp.eval` dispatches all four to the same structural comparison. -/
theorem c8_loose_and_strict_equality_agree (a b : Value) :
    binaryOpValue "==" a b = binaryOpValue "===" a b ∧
    binaryOpValue "!=" a b = binaryOpValue "!==" a b :=
  ⟨rfl, rfl⟩

/-- C1 (the code violates the claim): `BinaryOp.eval` evaluates and
dereferences the right operand before dispatching on `&&`/`||`, so the
logical operators do not short-circuit.  At the failing inputs
`false && (x = 5)` and `true || (x = 5)` (with `x` initially `1`) the
spec requires the assignment not to run and `x` to stay `1`; the code runs
it, leaving `x = 5` in the final environment (the operator result itself
matches Python's `and`/`or` of the already-evaluated operands). -/
theorem c1_logical_ops_evaluate_right_operand :
    evalValue 3 (.binaryOp "&&" (.literal (.bool false))
        (.assignment "=" (.identifier "x") (.literal (.number 5)))) 0
        (initialSt [("x", .number 1)]) =
      .ok (.bool false, initialSt [("x", .number 5)]) ∧
    evalValue 3 (.binaryOp "||" (.literal (.bool true))
        (.assignment "=" (.identifier "x") (.literal (.number 5)))) 0
        (initialSt [("x", .number 1)]) =
      .ok (.bool true, initialSt [("x", .number 5)]) := by
  have hset : setMutableBinding (initialSt [("x", Value.number 1)]) 0 "x"
      (Value.number 5) = initialSt [("x", Value.number 5)] := by
    rw [setMutableBinding]
    simp [initialSt, dictHas, dictLookup, dictSet, setFrame]
  constructor <;> (rw [← hset]; rfl)

/-- C9 counterexample: the claim states that an explicit final element is
kept even when it evaluates to `Undefined`, but `ArrayLiteral.eval` drops
the last item whenever it *is* `js.UNDEFINED`: evaluating `[void 0]` yields
an empty Array, not an Array with one `Undefined` entry. -/
theorem c9_trailing_explicit_undefined_dropped :
    evalValue 4 (.arrayLiteral [some (.unaryOp "void" (.literal (.number 0)))])
        0 (initialSt []) =
      .ok (.array 0 [], ⟨[⟨[], none⟩], 1⟩) ∧
    mkArrayEntries [Value.undefined] = [(arrayKey 0, Value.undefined)] ∧
    (([] : List (String × Value)) ≠ [(arrayKey 0, Value.undefined)]) :=
  ⟨rfl, rfl, by simp⟩

/-- C9 (amended): `ArrayLiteral.eval` drops exactly one trailing `Undefined`
value from the evaluated items — whether it came from an elision or from an
explicit final expression that evaluated to `Undefined`; when the last value
is not `Undefined` nothing is dropped; elision slots contribute explicit
`Undefined` entries wherever they occur, so interior elisions are kept
(`[1,2,,]` keeps `[1, 2, Undefined]`). -/
theorem c9_array_literal_single_trailing_undefined_dropped (fuel : Nat)
    (items : List (Option Expr)) (env : Nat) (s s1 : St) (vals : List Value)
    (h : evalArrayItems fuel items env s = .ok (vals, s1)) :
    (∀ vs, vals = vs ++ [Value.undefined] →
      evalExpr (fuel + 1) (.arrayLiteral items) env s =
        .ok (.val (.array s1.nextAddr (mkArrayEntries vs)),
             ⟨s1.frames, s1.nextAddr + 1⟩))
    ∧ (vals.getLast? ≠ some Value.undefined →
      evalExpr (fuel + 1) (.arrayLiteral items) env s =
        .ok (.val (.array s1.nextAddr (mkArrayEntries vals)),
             ⟨s1.frames, s1.nextAddr + 1⟩))
    ∧ evalArrayItems (fuel + 1) (none :: items) env s =
        .ok (Value.undefined :: vals, s1)
    ∧ evalValue 8 (.arrayLiteral [some (.literal (.number 1)),
        some (.literal (.number 2)), none, none]) 0 (initialSt []) =
        .ok (.array 0 (mkArrayEntries [.number 1, .number 2, .undefined]),
             ⟨[⟨[], none⟩], 1⟩) := by
  refine ⟨?_, ?_, ?_, rfl⟩
  · intro vs hvs
    subst hvs
    simp [evalExpr, h, ok_bind, allocAddr, List.getLast?_concat,
      List.dropLast_concat]
  · intro hne
    cases hl : vals.getLast? with
    | none => simp [evalExpr, h, ok_bind, allocAddr, hl]
    | some v =>
        cases v
        all_goals first
          | exact absurd hl hne
          | simp [evalExpr, h, ok_bind, allocAddr, hl]
  · simp [evalArrayItems, h, ok_bind]

/-- C9 witness: a one-element literal array is kept intact (its last value
is not `Undefined`). -/
theorem c9_array_literal_witness :
    evalExpr 3 (.arrayLiteral [some (.literal (.number 7))]) 0 (initialSt []) =
      .ok (.val (.array 0 (mkArrayEntries [.number 7])),
           ⟨[⟨[], none⟩], 1⟩) :=
  (c9_array_literal_single_trailing_undefined_dropped 2
    [some (.literal (.number 7))] 0 (initialSt []) (initialSt [])
    [.number 7] rfl).2.1 (by simp)

/-- C3: a Block evaluates its statements in order; an abrupt completion
stops evaluation immediately and is returned unchanged; a Normal completion
with a value becomes the new tracked result; a Normal completion with the
`EMPTY` value leaves the tracked result unchanged; an exhausted list
returns the tracked result (started at `EMPTY_COMPLETION`); and concretely
`{ 1; 3; }` yields value `3` and `{7;;}` yields value `7`. -/
theorem c3_block_completion_propagation (fuel : Nat) (st : Stmt)
    (rest : List Stmt) (env : Nat) (result pr : Completion) (s s1 : St)
    (h : evalStmt fuel st env s = .ok (pr, s1)) :
    (isAbrupt pr = true →
      evalStmtList (fuel + 1) (st :: rest) env result s = .ok (pr, s1))
    ∧ (∀ v, pr = ⟨.normal, some v⟩ →
      evalStmtList (fuel + 1) (st :: rest) env result s =
        evalStmtList fuel rest env ⟨.normal, some v⟩ s1)
    ∧ (pr = ⟨.normal, none⟩ →
      evalStmtList (fuel + 1) (st :: rest) env result s =
        evalStmtList fuel rest env result s1)
    ∧ evalStmtList (fuel + 1) [] env result s = .ok (result, s)
    ∧ evalStmt (fuel + 1) (.block (st :: rest)) env s =
        evalStmtList fuel (st :: rest) env emptyCompletion s
    ∧ evalStmt 5 (.block [.exprStmt (.literal (.number 1)),
        .exprStmt (.literal (.number 3))]) 0 (initialSt []) =
        .ok (⟨.normal, some (.number 3)⟩, initialSt [])
    ∧ evalStmt 5 (.block [.exprStmt (.literal (.number 7)), .emptyStmt]) 0
        (initialSt []) =
        .ok (⟨.normal, some (.number 7)⟩, initialSt []) := by
  refine ⟨?_, ?_, ?_, rfl, rfl, rfl, rfl⟩
  · intro habr
    simp [evalStmtList, h, habr, ok_bind]
  · intro v hv
    subst hv
    simp [evalStmtList, h, ok_bind, isAbrupt]
  · intro hv
    subst hv
    simp [evalStmtList, h, ok_bind, isAbrupt]

/-- C3 witness: a single-statement block step at a concrete input. -/
theorem c3_block_witness :
    evalStmtList 3 [.exprStmt (.literal (.number 2))] 0 emptyCompletion
        (initialSt []) =
      evalStmtList 2 [] 0 ⟨.normal, some (.number 2)⟩ (initialSt []) :=
  (c3_block_completion_propagation 2 (.exprStmt (.literal (.number 2))) [] 0
    emptyCompletion ⟨.normal, some (.number 2)⟩ (initialSt []) (initialSt [])
    rfl).2.1 (.number 2) rfl

/-- C7: a `FunctionCall` whose callee expression dereferences to a value
that is not a `Function` (e.g. a number or a string) fails: the Python
attribute access `f.call` raises before any argument is evaluated.  (The
raised exception is Python's `AttributeError`, which is the error the
spec's taxonomy labels the `TypeError`-class: invoking a non-callable
value.  Host `NativeFunction` values, the only other callables, are outside
the embedded fragment.) -/
theorem c7_calling_non_callable_fails (fuel : Nat) (obj : Expr)
    (args : List Expr) (env : Nat) (s s1 : St) (fr : ExprResult) (f : Value)
    (h1 : evalExpr fuel obj env s = .ok (fr, s1))
    (h2 : getValue fr s1 = .ok f)
    (h3 : ∀ addr params body dvars scope,
      f ≠ .function addr params body dvars scope) :
    evalExpr (fuel + 1) (.functionCall obj args) env s =
      .error .attributeError := by
  cases f
  case function addr params body dvars scope =>
    exact absurd rfl (h3 addr params body dvars scope)
  all_goals simp [evalExpr, h1, h2, ok_bind]

/-- C7 witness: calling the number `5` raises. -/
theorem c7_calling_non_callable_witness :
    evalExpr 2 (.functionCall (.literal (.number 5)) []) 0 (initialSt []) =
      .error .attributeError :=
  c7_calling_non_callable_fails 1 (.literal (.number 5)) [] 0 (initialSt [])
    (initialSt []) (.val (.number 5)) (.number 5) rfl rfl
    (by intro addr params body dvars scope; simp)

/-- C10: the stubbed unary operators `delete`, `void` and `typeof`
dereference their operand before dispatching, so applying any of them to an
identifier bound nowhere in the environment chain raises `ReferenceError`
instead of returning the stub's placeholder result. -/
theorem c10_stub_unary_ops_deref_operand (fuel : Nat) (op name : String)
    (env : Nat) (s : St)
    (hop : op = "delete" ∨ op = "void" ∨ op = "typeof")
    (h : hasBindingInChain s env name = false) :
    evalExpr (fuel + 2) (.unaryOp op (.identifier name)) env s =
      .error .referenceError := by
  have href := getBindingValue_of_not_in_chain s name env h
  rcases hop with hop | hop | hop <;> subst hop <;>
    simp [evalExpr, getValue, href, ok_bind, error_bind]

/-- C10 witness: `typeof` on an unbound identifier raises instead of
returning `"object"`. -/
theorem c10_stub_unary_ops_witness :
    evalExpr 2 (.unaryOp "typeof" (.identifier "nope")) 0 (initialSt []) =
      .error .referenceError :=
  c10_stub_unary_ops_deref_operand 0 "typeof" "nope" 0 (initialSt [])
    (Or.inr (Or.inr rfl))
    (by rw [hasBindingInChain]; simp [initialSt, dictHas, dictLookup])

/-- C5: `set_mutable_binding` never fails (it is a total function into
`St`): a name present in the own bindings is overwritten there; an absent
name delegates to the parent; and a name declared nowhere along a
well-formed chain is created at the root (global) frame rather than raising
`ReferenceError`. -/
theorem c5_set_mutable_binding_never_fails (s : St) (i : Nat) (n : String)
    (v : Value) (f : Frame) (hf : s.frames[i]? = some f) :
    (dictHas f.bindings n = true →
      setMutableBinding s i n v =
        setFrame s i ⟨dictSet f.bindings n v, f.parent⟩)
    ∧ (∀ p, dictHas f.bindings n = false → f.parent = some p → p < i →
      setMutableBinding s i n v = setMutableBinding s p n v)
    ∧ (dictHas f.bindings n = false → f.parent = none →
      setMutableBinding s i n v =
        setFrame s i ⟨dictSet f.bindings n v, none⟩)
    ∧ (wellFormed s → i < s.frames.length →
      hasBindingInChain s i n = false →
      ∃ g, s.frames[rootOf s i]? = some g ∧ g.parent = none ∧
        setMutableBinding s i n v =
          setFrame s (rootOf s i) ⟨dictSet g.bindings n v, none⟩) := by
  refine ⟨?_, ?_, ?_, ?_⟩
  · intro hh
    rw [setMutableBinding]
    simp [hf, hh]
  · intro p hh hp hlt
    rw [setMutableBinding]
    simp [hf, hh, hp, dif_pos hlt]
  · intro hh hp
    rw [setMutableBinding]
    simp [hf, hh, hp]
  · intro hw hi hchain
    exact setMutableBinding_creates_at_root s n v hw i hi hchain

/-- C5 witness: assignment to a name absent from a child frame delegates to
the parent frame. -/
theorem c5_set_mutable_binding_witness :
    setMutableBinding
        ⟨[⟨[("g", .number 0)], none⟩, ⟨[("l", .number 1)], some 0⟩], 0⟩
        1 "g" (.number 7) =
      setMutableBinding
        ⟨[⟨[("g", .number 0)], none⟩, ⟨[("l", .number 1)], some 0⟩], 0⟩
        0 "g" (.number 7) :=
  (c5_set_mutable_binding_never_fails
    ⟨[⟨[("g", .number 0)], none⟩, ⟨[("l", .number 1)], some 0⟩], 0⟩
    1 "g" (.number 7) ⟨[("l", .number 1)], some 0⟩ rfl).2.1 0 rfl rfl
    (by decide)

/-- C6: an Assignment whose left side evaluates to a plain Value raises
`ReferenceError` (for `=` directly at the write; for a compound operator
after the stripped operator has been applied); when the left side is a
Reference, `=` writes the dereferenced right-side value through it, a
compound operator combines the Reference's current value with the
right-side value using the operator obtained by stripping the trailing `=`
and writes the result, and both return the newly written value; concretely,
with `x = 15`, `x /= 5 - 2` returns `5` and leaves `x = 5`. -/
theorem c6_assignment_references_and_compound (fuel : Nat) (op : String)
    (refE ex : Expr) (env : Nat) (s s1 s2 : St) (r : ExprResult) (v : Value)
    (h1 : evalExpr fuel refE env s = .ok (r, s1))
    (h2 : evalValue fuel ex env s1 = .ok (v, s2)) :
    (∀ w, r = .val w → op = "=" →
      evalExpr (fuel + 1) (.assignment op refE ex) env s =
        .error .referenceError)
    ∧ (∀ w nv, r = .val w → op ≠ "=" →
      performBinaryOp (op.dropRight 1) w v = .ok nv →
      evalExpr (fuel + 1) (.assignment op refE ex) env s =
        .error .referenceError)
    ∧ (∀ rr, r = .ref rr → op = "=" →
      evalExpr (fuel + 1) (.assignment op refE ex) env s =
        .ok (.val v, setMutableBinding s2 rr.env rr.name v))
    ∧ (∀ rr cur nv, r = .ref rr → op ≠ "=" →
      getBindingValue s2 rr.env rr.name = .ok cur →
      performBinaryOp (op.dropRight 1) cur v = .ok nv →
      evalExpr (fuel + 1) (.assignment op refE ex) env s =
        .ok (.val nv, setMutableBinding s2 rr.env rr.name nv))
    ∧ evalValue 3 (.assignment "/=" (.identifier "x")
        (.binaryOp "-" (.literal (.number 5)) (.literal (.number 2)))) 0
        (initialSt [("x", .number 15)]) =
      .ok (.number 5, initialSt [("x", .number 5)]) := by
  obtain ⟨vr, hx, hg⟩ := evalValue_inv h2
  refine ⟨?_, ?_, ?_, ?_, ?_⟩
  · intro w hr hop
    subst hr
    subst hop
    simp only [evalExpr, h1, hx, ok_bind]
    rw [hg]
    simp [ok_bind, error_bind, putValue]
  · intro w nv hr hop hpb
    subst hr
    simp only [evalExpr, h1, hx, ok_bind]
    rw [hg]
    simp only [ok_bind, hop, if_false, ite_false, if_neg hop]
    simp [getValue, ok_bind, hpb, putValue, error_bind]
  · intro rr hr hop
    subst hr
    subst hop
    simp only [evalExpr, h1, hx, ok_bind]
    rw [hg]
    simp [ok_bind, putValue]
  · intro rr cur nv hr hop hcur hpb
    subst hr
    simp only [evalExpr, h1, hx, ok_bind]
    rw [hg]
    simp only [ok_bind, if_neg hop]
    simp [getValue, hcur, hpb, putValue, ok_bind]
  · have hget : getBindingValue (initialSt [("x", Value.number 15)]) 0 "x" =
        .ok (.number 15) := by
      rw [getBindingValue]
      simp [initialSt, dictLookup]
    have hset : setMutableBinding (initialSt [("x", Value.number 15)]) 0 "x"
        (.number 5) = initialSt [("x", Value.number 5)] := by
      rw [setMutableBinding]
      simp [initialSt, dictHas, dictLookup, dictSet, setFrame]
    have hid : evalExpr 2 (.identifier "x") 0
        (initialSt [("x", .number 15)]) =
        .ok (.ref ⟨"x", 0⟩, initialSt [("x", .number 15)]) := rfl
    have hsub : binaryOpValue "-" (Value.number 5) (Value.number 2) =
        .ok (.number 3) := by
      show pySub (Value.number 5) (Value.number 2) = .ok (.number 3)
      unfold pySub
      simp only [asNum]
      norm_num
    have hrhs : evalExpr 2 (.binaryOp "-" (.literal (.number 5))
        (.literal (.number 2))) 0 (initialSt [("x", .number 15)]) =
        .ok (.val (.number 3), initialSt [("x", .number 15)]) := by
      simp only [evalExpr, ok_bind, getValue, hsub]
    have hperf : performBinaryOp ("/=".dropRight 1) (Value.number 15)
        (Value.number 3) = .ok (.number 5) := by
      rw [show ("/=".dropRight 1) = "/" from rfl]
      show pyDiv (Value.number 15) (Value.number 3) = .ok (.number 5)
      unfold pyDiv
      simp only [asNum]
      rw [if_neg (by norm_num : ¬(3 : Rat) = 0)]
      norm_num
    have hstep : evalExpr 3 (.assignment "/=" (.identifier "x")
        (.binaryOp "-" (.literal (.number 5)) (.literal (.number 2)))) 0
        (initialSt [("x", .number 15)]) =
        .ok (.val (.number 5),
          setMutableBinding (initialSt [("x", .number 15)]) 0 "x"
            (.number 5)) := by
      simp [evalExpr, ok_bind, getValue, hsub, hperf, hget, putValue]
    unfold evalValue
    rw [hstep]
    simp [ok_bind, getValue, hset]

/-- C6 witness: a plain `=` through an identifier Reference writes the
dereferenced right-side value and returns it. -/
theorem c6_assignment_witness :
    evalExpr 2 (.assignment "=" (.identifier "x") (.literal (.number 2))) 0
        (initialSt [("x", .number 1)]) =
      .ok (.val (.number 2),
        setMutableBinding (initialSt [("x", .number 1)]) 0 "x" (.number 2)) :=
  (c6_assignment_references_and_compound 1 "=" (.identifier "x")
    (.literal (.number 2)) 0 (initialSt [("x", .number 1)])
    (initialSt [("x", .number 1)]) (initialSt [("x", .number 1)])
    (.ref ⟨"x", 0⟩) (.number 2) rfl rfl).2.2.1 ⟨"x", 0⟩ rfl rfl

/-- C4: for `while` (under a truthy condition) and `do-while`, a body
yielding a `Break` completion stops the loop with a Normal completion
carrying the last produced value (`Option.or` folds the body's value into
the accumulator); a `Continue` completion proceeds to the next iteration
preserving the accumulated value; and a `Return` completion (the only other
abrupt kind) is returned untouched. -/
theorem c4_loops_trap_break_continue_propagate_return (fuel : Nat) (c : Expr)
    (b : Stmt) (env : Nat) (acc : Option Value) (s s1 s2 sd sd1 : St)
    (cvw : Value) (stw std : Completion) (cvd : Value)
    (h1 : evalValue fuel c env s = .ok (cvw, s1))
    (h2 : truthy cvw = true)
    (h3 : evalStmt fuel b env s1 = .ok (stw, s2))
    (h4 : evalStmt fuel b env s = .ok (std, sd))
    (h5 : evalValue fuel c env sd = .ok (cvd, sd1)) :
    (stw.type = .brk →
      whileLoop (fuel + 1) c b env acc s =
        .ok (⟨.normal, stw.value.or acc⟩, s2))
    ∧ (stw.type = .cont →
      whileLoop (fuel + 1) c b env acc s =
        whileLoop fuel c b env (stw.value.or acc) s2)
    ∧ (stw.type = .ret →
      whileLoop (fuel + 1) c b env acc s = .ok (stw, s2))
    ∧ (std.type = .brk →
      doWhileLoop (fuel + 1) c b env acc s =
        .ok (⟨.normal, std.value.or acc⟩, sd))
    ∧ (std.type = .ret →
      doWhileLoop (fuel + 1) c b env acc s = .ok (std, sd))
    ∧ (std.type = .cont → truthy cvd = true →
      doWhileLoop (fuel + 1) c b env acc s =
        doWhileLoop fuel c b env (std.value.or acc) sd1)
    ∧ (std.type = .cont → truthy cvd = false →
      doWhileLoop (fuel + 1) c b env acc s =
        .ok (⟨.normal, std.value.or acc⟩, sd1)) := by
  obtain ⟨rw1, hxw, hgw⟩ := evalValue_inv h1
  obtain ⟨rd1, hxd, hgd⟩ := evalValue_inv h5
  obtain ⟨tyw, valw⟩ := stw
  obtain ⟨tyd, vald⟩ := std
  refine ⟨?_, ?_, ?_, ?_, ?_, ?_, ?_⟩
  · intro ht
    simp only at ht
    subst ht
    simp only [whileLoop, hxw, ok_bind]
    rw [hgw]
    simp only [ok_bind, h2, Bool.not_true, Bool.false_eq_true, if_false, h3]
    cases valw <;> simp [Option.or]
  · intro ht
    simp only at ht
    subst ht
    simp only [whileLoop, hxw, ok_bind]
    rw [hgw]
    simp only [ok_bind, h2, Bool.not_true, Bool.false_eq_true, if_false, h3]
    cases valw <;> simp [Option.or]
  · intro ht
    simp only at ht
    subst ht
    simp only [whileLoop, hxw, ok_bind]
    rw [hgw]
    simp only [ok_bind, h2, Bool.not_true, Bool.false_eq_true, if_false, h3]
  · intro ht
    simp only at ht
    subst ht
    simp only [doWhileLoop, h4, ok_bind]
    cases vald <;> simp [Option.or]
  · intro ht
    simp only at ht
    subst ht
    simp only [doWhileLoop, h4, ok_bind]
  · intro ht htr
    simp only at ht
    subst ht
    simp only [doWhileLoop, h4, ok_bind, hxd]
    rw [hgd]
    simp only [ok_bind, htr, if_true]
    cases vald <;> simp [Option.or]
  · intro ht htr
    simp only at ht
    subst ht
    simp only [doWhileLoop, h4, ok_bind, hxd]
    rw [hgd]
    simp only [ok_bind, htr, Bool.false_eq_true, if_false]
    cases vald <;> simp [Option.or]

/-- C4 witness: a body that immediately breaks stops a `while (true)` loop
with a Normal, valueless completion. -/
theorem c4_loops_witness :
    whileLoop 2 (.literal (.bool true)) .breakStmt 0 none (initialSt []) =
      .ok (⟨.normal, none⟩, initialSt []) :=
  (c4_loops_trap_break_continue_propagate_return 1 (.literal (.bool true))
    .breakStmt 0 none (initialSt []) (initialSt []) (initialSt [])
    (initialSt []) (initialSt []) (.bool true) ⟨.brk, none⟩ ⟨.brk, none⟩
    (.bool true) rfl rfl rfl rfl rfl).1 rfl

/-- C2: `Function.call` builds own bindings that start from `Undefined` for
every statically hoisted declared variable, overlaid by the `arguments`
binding (the raw argument list), overlaid by each parameter bound to
`Undefined`, overlaid by each parameter bound to the positionally
corresponding argument (parameters beyond the supplied arguments stay
`Undefined`); evaluates the body in a freshly allocated Environment whose
parent is the Function's captured defining scope (the caller's environment
is not even an input of `call`); and yields the `Return` completion's value
when the body returns, `Undefined` otherwise. -/
theorem c2_function_call_mechanism (fuel : Nat) (params : List String)
    (body : Stmt) (dvars : List String) (scope : Nat) (args : List Value)
    (s : St) (hnd : params.Nodup) :
    (∀ cp s2, evalStmt fuel body s.frames.length
        ⟨s.frames ++ [⟨prepareFunctionBindings dvars params args,
          some scope⟩], s.nextAddr⟩ = .ok (cp, s2) →
      callFunction (fuel + 1) params body dvars scope args s =
        .ok (returnValue cp, s2))
    ∧ (∀ i (hi : i < params.length),
      dictLookup (prepareFunctionBindings dvars params args)
          (params.get ⟨i, hi⟩) =
        some (args.getD i .undefined))
    ∧ ("arguments" ∉ params →
      dictLookup (prepareFunctionBindings dvars params args) "arguments" =
        some (.pyList args))
    ∧ (∀ n, n ∈ dvars → n ∉ params → n ≠ "arguments" →
      dictLookup (prepareFunctionBindings dvars params args) n =
        some .undefined)
    ∧ (∀ n, n ∉ dvars → n ∉ params → n ≠ "arguments" →
      dictLookup (prepareFunctionBindings dvars params args) n = none)
    ∧ (∀ v, returnValue ⟨.ret, some v⟩ = v)
    ∧ (∀ cp, cp.type ≠ .ret → returnValue cp = .undefined) := by
  refine ⟨?_, ?_, ?_, ?_, ?_, fun v => rfl, ?_⟩
  · intro cp s2 hbody
    simp [callFunction, allocFrame, hbody, ok_bind]
  · intro i hi
    unfold prepareFunctionBindings
    rw [dictLookup_dictUpdate _ _ _ (nodupKeys_prepareArgsDict params args),
      prepareArgsDict_param params args hnd i hi]
  · intro hna
    unfold prepareFunctionBindings
    rw [dictLookup_dictUpdate _ _ _ (nodupKeys_prepareArgsDict params args),
      prepareArgsDict_arguments params args hna]
  · intro n hmem hnp hne
    unfold prepareFunctionBindings
    rw [dictLookup_dictUpdate _ _ _ (nodupKeys_prepareArgsDict params args),
      prepareArgsDict_not_mem params args n hnp hne,
      dictLookup_undefined_base, if_pos hmem]
  · intro n hmem hnp hne
    unfold prepareFunctionBindings
    rw [dictLookup_dictUpdate _ _ _ (nodupKeys_prepareArgsDict params args),
      prepareArgsDict_not_mem params args n hnp hne,
      dictLookup_undefined_base, if_neg hmem]
  · intro cp hne
    obtain ⟨ty, val⟩ := cp
    cases ty <;> simp_all [returnValue]

/-- C2 witness: a parameter is bound to its positionally corresponding
argument in the fresh call bindings. -/
theorem c2_function_call_witness :
    dictLookup (prepareFunctionBindings ["y"] ["x"] [.number 7]) "x" =
      some (.number 7) := by
  have h := (c2_function_call_mechanism 0 ["x"] .emptyStmt ["y"] 0
    [.number 7] (initialSt []) (by simp)).2.1 0 (by simp)
  simpa using h

end Jspy
